import Mathlib

/-!
A shallow embedding of the eucalyptus language front end: the AST with its
three passes (resolve, infer, evaluate) from `ast.rs`, the chained
value table from `valtab.rs`, the `main.rs` driver pipeline, and the
recursive-descent parser from `parser.rs`.

Modelling conventions:
* Rust `f64` numbers are modelled as rationals (`Rat`); every numeric
  computation carried out by a theorem in this development (small integer
  addition, subtraction and comparison) is exact in IEEE double precision,
  so the model agrees with the source on those computations.  `powf`,
  division by zero and `%` on non-integers are given total rational
  stand-ins that no theorem relies on.
* Reference-counted, interior-mutable tables (`Rc<RefCell<...>>`) are
  modelled as nodes in an explicit store, addressed by allocation index;
  mutation is explicit store passing.
* Fallible code returns `Except`; a Rust panic / `unwrap` failure is the
  distinguished error constructor `Err.fatal`, kept apart from the
  recoverable `RunError` (`Err.runError`).  Recursion is made total with a
  fuel parameter; exhausted fuel is `Err.fuelOut`, which no actual run in
  this development reaches.
* The repository declares modules `symtab`, `typetab`, `lexer`, a token
  `Traveler` and a parser error type whose files are not among the
  sources; those are modelled from the specification and marked
  `Modelled from the spec:` below.  Everything else is translated from
  `ast.rs`, `valtab.rs`, `parser.rs` and `main.rs`.
* The Rust `Debug` renderings (`{:?}`) used inside some error message
  strings are modelled only to constructor granularity by the `repr`
  functions below; no theorem depends on those strings.
-/

namespace Eucalyptus

/-- Operator tags (`Operand` in `ast.rs`). -/
inductive Operand
  | pow
  | mul | div | mod
  | add | sub
  | equal | nequal
  | lt | gt | ltEqual | gtEqual
  deriving DecidableEq

/-- Inferred types (`Type` in the sources; renamed `Ty` because `Type` is a
Lean keyword). -/
inductive Ty
  | number
  | str
  | char
  | bool
  | array (content : List Ty)
  | any
  | undefined

mutual
/-- Expressions (`Expression` in `ast.rs`). -/
inductive Expression
  | block (statements : List Statement)
  | number (n : Rat)
  | bool (b : Bool)
  | str (s : String)
  | char (c : Char)
  | array (content : List Expression)
  | identifier (name : String)
  | operation (left : Expression) (op : Operand) (right : Expression)
  | lambda (params : List String) (body : Expression)
  | call (callee : Expression) (args : List Expression)
  | index (id : Expression) (idx : Expression)
  | eof

/-- Statements (`Statement` in `ast.rs`). -/
inductive Statement
  | expression (e : Expression)
  | binding (left : Expression) (right : Expression)
  | function (name : String) (params : List String) (body : Expression)
  | assignment (left : Expression) (right : Expression)
end

/-- Runtime values (`Value` in `valtab.rs`). -/
inductive Value
  | number (n : Rat)
  | bool (b : Bool)
  | str (s : String)
  | char (c : Char)
  | array (content : List Value)
  | function (params : List String) (body : List Statement)
  | nil

/-- Errors.  `runError` is the recoverable `RunError` of `error.rs`;
`fatal` models a Rust panic (`unwrap`, `unreachable!`, out-of-bounds
`Vec::remove`); `fuelOut` is the fuel-exhaustion artifact of the
embedding. -/
inductive Err
  | runError (msg : String)
  | fatal (msg : String)
  | fuelOut
  deriving DecidableEq

/-- The message carried by an error (`Display` of `RunError`). -/
def Err.msg : Err → String
  | .runError m => m
  | .fatal m => m
  | .fuelOut => "out of fuel"

/-- Is a result `Ok`? -/
def resultOk {α : Type} : Except Err α → Bool
  | .ok _ => true
  | .error _ => false

/-- Is a value a `Function`? -/
def Value.isFunction : Value → Bool
  | .function _ _ => true
  | _ => false

mutual
/-- Structural equality on expressions (the derived `PartialEq` of
`ast.rs`). -/
def Expression.beq : Expression → Expression → Bool
  | .block a, .block b => stmtListBeq a b
  | .number a, .number b => a == b
  | .bool a, .bool b => a == b
  | .str a, .str b => a == b
  | .char a, .char b => a == b
  | .array a, .array b => exprListBeq a b
  | .identifier a, .identifier b => a == b
  | .operation l1 o1 r1, .operation l2 o2 r2 =>
    Expression.beq l1 l2 && o1 == o2 && Expression.beq r1 r2
  | .lambda p1 b1, .lambda p2 b2 => p1 == p2 && Expression.beq b1 b2
  | .call c1 a1, .call c2 a2 => Expression.beq c1 c2 && exprListBeq a1 a2
  | .index i1 x1, .index i2 x2 => Expression.beq i1 i2 && Expression.beq x1 x2
  | .eof, .eof => true
  | _, _ => false

/-- Structural equality on statements (the derived `PartialEq` of
`ast.rs`). -/
def Statement.beq : Statement → Statement → Bool
  | .expression a, .expression b => Expression.beq a b
  | .binding l1 r1, .binding l2 r2 => Expression.beq l1 l2 && Expression.beq r1 r2
  | .function n1 p1 b1, .function n2 p2 b2 =>
    n1 == n2 && p1 == p2 && Expression.beq b1 b2
  | .assignment l1 r1, .assignment l2 r2 => Expression.beq l1 l2 && Expression.beq r1 r2
  | _, _ => false

/-- Element-wise equality of expression lists. -/
def exprListBeq : List Expression → List Expression → Bool
  | [], [] => true
  | x :: xs, y :: ys => Expression.beq x y && exprListBeq xs ys
  | _, _ => false

/-- Element-wise equality of statement lists. -/
def stmtListBeq : List Statement → List Statement → Bool
  | [], [] => true
  | x :: xs, y :: ys => Statement.beq x y && stmtListBeq xs ys
  | _, _ => false
end

mutual
/-- Structural equality on runtime values (the derived `PartialEq` of
`valtab.rs`).  Caveat: on `f64` the Rust comparison makes `NaN` unequal to
itself; rationals have no `NaN`, and no theorem exercises that corner. -/
def Value.beq : Value → Value → Bool
  | .number a, .number b => a == b
  | .bool a, .bool b => a == b
  | .str a, .str b => a == b
  | .char a, .char b => a == b
  | .array a, .array b => valListBeq a b
  | .function p1 b1, .function p2 b2 => p1 == p2 && stmtListBeq b1 b2
  | .nil, .nil => true
  | _, _ => false

/-- Element-wise equality of value lists. -/
def valListBeq : List Value → List Value → Bool
  | [], [] => true
  | x :: xs, y :: ys => Value.beq x y && valListBeq xs ys
  | _, _ => false
end

/-- Truncation-toward-zero of a rational followed by Rust's saturating
`as usize` cast (negative values clamp to 0). -/
def ratToUsize (q : Rat) : Nat :=
  if q < 0 then 0 else q.floor.toNat

/-- Stand-in for `f64::powf`, exact on natural-number exponents; no theorem
computes with it. -/
def powf (a b : Rat) : Rat :=
  if 0 ≤ b.num ∧ b.den = 1 then a ^ b.num.toNat else 0

/-- Stand-in for the `f64` `%` operator (`a - b * trunc (a / b)`), exact when
the division is exact; no theorem computes with it. -/
def ratRem (a b : Rat) : Rat :=
  a - b * (Rat.floor (a / b) : Rat)

/-- Rust `Debug` rendering of a `Ty`, modelled to constructor granularity
(array element types are elided). -/
def Ty.repr : Ty → String
  | .number => "Number"
  | .str => "Str"
  | .char => "Char"
  | .bool => "Bool"
  | .array _ => "Array(..)"
  | .any => "Any"
  | .undefined => "Undefined"

/-- Rust `Debug` rendering of a `Value`, modelled to constructor
granularity. -/
def Value.repr : Value → String
  | .number q => "Number(" ++ toString q ++ ")"
  | .bool b => "Bool(" ++ toString b ++ ")"
  | .str s => "Str(" ++ s ++ ")"
  | .char c => "Char(" ++ String.singleton c ++ ")"
  | .array _ => "Array(..)"
  | .function _ _ => "Function(..)"
  | .nil => "Nil"

/-- Rust `Debug` rendering of an `Expression`, modelled to constructor
granularity. -/
def Expression.repr : Expression → String
  | .block _ => "Block(..)"
  | .number q => "Number(" ++ toString q ++ ")"
  | .bool b => "Bool(" ++ toString b ++ ")"
  | .str s => "Str(" ++ s ++ ")"
  | .char c => "Char(" ++ String.singleton c ++ ")"
  | .array _ => "Array(..)"
  | .identifier n => "Identifier(" ++ n ++ ")"
  | .operation _ _ _ => "Operation(..)"
  | .lambda _ _ => "Lambda(..)"
  | .call _ _ => "Call(..)"
  | .index _ _ => "Index(..)"
  | .eof => "EOF"

/-- A symbol-table node.  Modelled from the spec: `symtab.rs` is not among
the sources; per spec §4.2 all three tables share one shape — an optional
shared reference to a parent table and a growable ordered array of
per-slot payloads (names for the SymbolTable). -/
structure SymNode where
  parent : Option Nat
  names : List String

/-- A type-table node.  Modelled from the spec: `typetab.rs` is not among
the sources; same shape with `Ty` payloads. -/
structure TypeNode where
  parent : Option Nat
  types : List Ty

/-- A value-table node (`ValTab` in `valtab.rs`): optional parent reference
and a growable array of values. -/
structure ValNode where
  parent : Option Nat
  values : List Value

/-- The store holding every allocated table node; `Rc<SymTab>` etc. are
modelled as indices into these lists. -/
structure Store where
  syms : List SymNode
  typs : List TypeNode
  vals : List ValNode

/-- Replace the symbol node at an address. -/
def Store.setSym (st : Store) (a : Nat) (n : SymNode) : Store :=
  { st with syms := st.syms.set a n }

/-- Replace the type node at an address. -/
def Store.setTyp (st : Store) (a : Nat) (n : TypeNode) : Store :=
  { st with typs := st.typs.set a n }

/-- Replace the value node at an address. -/
def Store.setVal (st : Store) (a : Nat) (n : ValNode) : Store :=
  { st with vals := st.vals.set a n }

/-- Chain walk for `get_name`, bounded by explicit fuel (parent chains built
by allocation always satisfy `parent < address`, so `address + 1` steps
suffice; see `SymTab.get_name`). -/
def SymTab.getNameAux : Nat → Store → Nat → String → Option (Nat × Nat)
  | 0, _, _, _ => none
  | fu + 1, st, addr, name =>
    match st.syms[addr]? with
    | none => none
    | some node =>
      match node.names.findIdx? (fun m => m == name) with
      | some i => some (i, 0)
      | none =>
        match node.parent with
        | none => none
        | some p => (SymTab.getNameAux fu st p name).map (fun r => (r.1, r.2 + 1))

/-- Modelled from the spec: `SymTab::get_name` (spec §4.2) searches this
scope's array first; on miss, recurses to the parent with depth + 1;
returns `none` at the root if never found. -/
def SymTab.get_name (st : Store) (addr : Nat) (name : String) : Option (Nat × Nat) :=
  SymTab.getNameAux (addr + 1) st addr name

/-- Modelled from the spec: `SymTab::add_name` (spec §4.2) — if the name
already exists in this scope's array, return its existing slot; otherwise
append and return the new slot. -/
def SymTab.add_name (st : Store) (addr : Nat) (name : String) : Nat × Store :=
  match st.syms[addr]? with
  | none => (0, st)
  | some node =>
    match node.names.findIdx? (fun m => m == name) with
    | some i => (i, st)
    | none => (node.names.length, st.setSym addr { node with names := node.names ++ [name] })

/-- Modelled from the spec: allocating a child symbol table
(`SymTab::new(parent, names)`), returning its address. -/
def SymTab.new (st : Store) (parent : Nat) (names : List String) : Nat × Store :=
  (st.syms.length, { st with syms := st.syms ++ [⟨some parent, names⟩] })

/-- Modelled from the spec: `TypeTab::get_type` — depth 0 reads this table,
depth > 0 recurses to the parent; out-of-range slot or depth is an
error. -/
def TypeTab.get_type : Store → Nat → Nat → Nat → Except Err Ty
  | st, addr, index, 0 =>
    match st.typs[addr]? with
    | none => .error (.runError "invalid type table address")
    | some node =>
      match node.types[index]? with
      | some t => .ok t
      | none => .error (.runError s!"can't get type of invalid type index: {index}")
  | st, addr, index, e + 1 =>
    match st.typs[addr]? with
    | none => .error (.runError "invalid type table address")
    | some node =>
      match node.parent with
      | some p => TypeTab.get_type st p index e
      | none => .error (.runError s!"can't get type with invalid env index: {e + 1}")

/-- Modelled from the spec: `TypeTab::set_type`, the depth-indexed write. -/
def TypeTab.set_type : Store → Nat → Nat → Nat → Ty → Except Err Store
  | st, addr, index, 0, t =>
    match st.typs[addr]? with
    | none => .error (.runError "invalid type table address")
    | some node =>
      if index < node.types.length then
        .ok (st.setTyp addr { node with types := node.types.set index t })
      else .error (.runError s!"can't set type of invalid type index: {index}")
  | st, addr, index, e + 1, t =>
    match st.typs[addr]? with
    | none => .error (.runError "invalid type table address")
    | some node =>
      match node.parent with
      | some p => TypeTab.set_type st p index e t
      | none => .error (.runError s!"can't set type with invalid env index: {e + 1}")

/-- Modelled from the spec: `TypeTab::size`, the length of this scope's
slot array. -/
def TypeTab.size (st : Store) (addr : Nat) : Nat :=
  match st.typs[addr]? with
  | some node => node.types.length
  | none => 0

/-- Modelled from the spec: `TypeTab::grow` appends one default slot
(`Any`). -/
def TypeTab.grow (st : Store) (addr : Nat) : Store :=
  match st.typs[addr]? with
  | some node => st.setTyp addr { node with types := node.types ++ [.any] }
  | none => st

/-- `ValTab::new(parent, types)` from `valtab.rs`: a child node holding a
copy of the given values, returning its address. -/
def ValTab.new (st : Store) (parent : Nat) (values : List Value) : Nat × Store :=
  (st.vals.length, { st with vals := st.vals ++ [⟨some parent, values⟩] })

/-- `ValTab::set_value` from `valtab.rs`: depth 0 writes this table's slot
array, depth > 0 recurses to the parent; invalid slot or depth is a
`RunError`. -/
def ValTab.set_value : Store → Nat → Nat → Nat → Value → Except Err Store
  | st, addr, index, 0, v =>
    match st.vals[addr]? with
    | none => .error (.runError "invalid value table address")
    | some node =>
      if index < node.values.length then
        .ok (st.setVal addr { node with values := node.values.set index v })
      else .error (.runError s!"can't set value of invalid value index: {index}")
  | st, addr, index, e + 1, v =>
    match st.vals[addr]? with
    | none => .error (.runError "invalid value table address")
    | some node =>
      match node.parent with
      | some p => ValTab.set_value st p index e v
      | none => .error (.runError s!"can't set value with invalid env index: {e + 1}")

/-- `ValTab::get_value` from `valtab.rs`: depth 0 reads this table's slot
array (returning a clone of the stored value), depth > 0 recurses to the
parent. -/
def ValTab.get_value : Store → Nat → Nat → Nat → Except Err Value
  | st, addr, index, 0 =>
    match st.vals[addr]? with
    | none => .error (.runError "invalid value table address")
    | some node =>
      match node.values[index]? with
      | some v => .ok v
      | none => .error (.runError s!"can't get value of invalid value index: {index}")
  | st, addr, index, e + 1 =>
    match st.vals[addr]? with
    | none => .error (.runError "invalid value table address")
    | some node =>
      match node.parent with
      | some p => ValTab.get_value st p index e
      | none => .error (.runError s!"can't get value with invalid value index: {index}")

/-- `ValTab::size` from `valtab.rs`. -/
def ValTab.size (st : Store) (addr : Nat) : Nat :=
  match st.vals[addr]? with
  | some node => node.values.length
  | none => 0

/-- `ValTab::grow` from `valtab.rs`: appends one `Nil` slot. -/
def ValTab.grow (st : Store) (addr : Nat) : Store :=
  match st.vals[addr]? with
  | some node => st.setVal addr { node with values := node.values ++ [.nil] }
  | none => st

/-- `Lambda::eval` from `ast.rs`: a lambda evaluates to a `Function` value
holding only its parameters and statement-list body — no scope is
captured. -/
def Lambda.eval (params : List String) (body : Expression) : Value :=
  Value.function params
    (match body with
     | .block s => s
     | e => [Statement.expression e])

mutual
/-- The resolve pass on expressions (`impl Visitor for Expression`,
`ast.rs`).  Arguments: fuel, the expression, then the symbol-, type- and
value-table addresses and the store. -/
def Expression.visit : Nat → Expression → Nat → Nat → Nat → Store → Except Err Store
  | 0, _, _, _, _, _ => .error .fuelOut
  | n + 1, e, sym, tt, vt, st =>
    match e with
    | .block statements => visitStmtList n statements sym tt vt st
    | .array body => visitExprList n body sym tt vt st
    | .identifier id =>
      match SymTab.get_name st sym id with
      | some _ => .ok st
      | none => .error (.runError (id ++ ": undeclared use"))
    | .operation left _ right => do
      let st1 ← Expression.visit n left sym tt vt st
      Expression.visit n right sym tt vt st1
    | .call callee args => do
      let st1 ← Expression.visit n callee sym tt vt st
      visitExprList n args sym tt vt st1
    | .index id idx => do
      let st1 ← Expression.visit n id sym tt vt st
      Expression.visit n idx sym tt vt st1
    | _ => .ok st
  termination_by structural fuel _ _ _ _ _ => fuel

/-- Resolve each statement of a block in order (the `Block` arm of
`Expression::visit`). -/
def visitStmtList : Nat → List Statement → Nat → Nat → Nat → Store → Except Err Store
  | 0, _, _, _, _, _ => .error .fuelOut
  | _ + 1, [], _, _, _, st => .ok st
  | n + 1, s :: rest, sym, tt, vt, st => do
    let st1 ← Statement.visit n s sym tt vt st
    visitStmtList n rest sym tt vt st1
  termination_by structural fuel _ _ _ _ _ => fuel

/-- Resolve each expression of a list in order (the `Array` arm of
`Expression::visit` and the argument loop of `Call::visit`). -/
def visitExprList : Nat → List Expression → Nat → Nat → Nat → Store → Except Err Store
  | 0, _, _, _, _, _ => .error .fuelOut
  | _ + 1, [], _, _, _, st => .ok st
  | n + 1, e :: rest, sym, tt, vt, st => do
    let st1 ← Expression.visit n e sym tt vt st
    visitExprList n rest sym tt vt st1
  termination_by structural fuel _ _ _ _ _ => fuel

/-- The resolve pass on statements (`impl Visitor for Statement`,
`ast.rs`).  Note the catch-all arm: `Function` and `Assignment`
statements are not visited. -/
def Statement.visit : Nat → Statement → Nat → Nat → Nat → Store → Except Err Store
  | 0, _, _, _, _, _ => .error .fuelOut
  | n + 1, s, sym, tt, vt, st =>
    match s with
    | .expression e => Expression.visit n e sym tt vt st
    | .binding left right => Binding.visit n left right sym tt vt st
    | _ => .ok st
  termination_by structural fuel _ _ _ _ _ => fuel

/-- `impl Visitor for Binding` (`ast.rs`): declare the name in the symbol
table, grow the type table if the slot is new, then record the
right-hand side's inferred type. -/
def Binding.visit : Nat → Expression → Expression → Nat → Nat → Nat → Store → Except Err Store
  | 0, _, _, _, _, _, _ => .error .fuelOut
  | n + 1, left, right, sym, tt, vt, st =>
    match left with
    | .identifier name =>
      let p := SymTab.add_name st sym name
      let st2 := if TypeTab.size p.2 tt ≤ p.1 then TypeTab.grow p.2 tt else p.2
      do
        let r ← Expression.get_type n right sym tt vt st2
        match TypeTab.set_type r.2 tt p.1 0 r.1 with
        | .ok st4 => .ok st4
        | .error e => .error (.runError (e.msg ++ ": error setting type"))
    | e => .error (.runError (e.repr ++ ": unexpected binding"))

/-- The infer pass on expressions (`impl Typer for Expression`,
`ast.rs`). -/
def Expression.get_type : Nat → Expression → Nat → Nat → Nat → Store → Except Err (Ty × Store)
  | 0, _, _, _, _, _ => .error .fuelOut
  | n + 1, e, sym, tt, vt, st =>
    match e with
    | .number _ => .ok (.number, st)
    | .str _ => .ok (.str, st)
    | .char _ => .ok (.char, st)
    | .bool _ => .ok (.bool, st)
    | .array content => do
      let r ← typeExprList n content sym tt vt st
      .ok (.array r.1, r.2)
    | .identifier name =>
      match SymTab.get_name st sym name with
      | some (i, envIndex) =>
        match TypeTab.get_type st tt i envIndex with
        | .ok t => .ok (t, st)
        | .error _ => .error (.fatal "called unwrap on an Err value")
      | none => .error (.runError ("unexpected use of: " ++ name))
    | .operation left op right => Operation.get_type n left op right sym tt vt st
    | .index id idx => Index.get_type n id idx sym tt vt st
    | _ => .ok (.undefined, st)
  termination_by structural fuel _ _ _ _ _ => fuel

/-- Infer the types of a list of expressions in order (the `Array` arm of
`Expression::get_type`). -/
def typeExprList : Nat → List Expression → Nat → Nat → Nat → Store → Except Err (List Ty × Store)
  | 0, _, _, _, _, _ => .error .fuelOut
  | _ + 1, [], _, _, _, st => .ok ([], st)
  | n + 1, e :: rest, sym, tt, vt, st => do
    let r ← Expression.get_type n e sym tt vt st
    let rs ← typeExprList n rest sym tt vt r.2
    .ok (r.1 :: rs.1, rs.2)
  termination_by structural fuel _ _ _ _ _ => fuel

/-- `impl Typer for Operation` (`ast.rs`): infer both operand types, then
apply the operator's typing rule.  Arithmetic operators accept one `Any`
side paired with `Number`; the comparison operators have no `Any` rule;
`Equal`/`NEqual` fall to the catch-all arm, which is `Undefined` without
inferring the operands. -/
def Operation.get_type : Nat → Expression → Operand → Expression → Nat → Nat → Nat → Store → Except Err (Ty × Store)
  | 0, _, _, _, _, _, _, _ => .error .fuelOut
  | n + 1, left, op, right, sym, tt, vt, st =>
    match op with
    | .pow => do
      let a ← Expression.get_type n left sym tt vt st
      let b ← Expression.get_type n right sym tt vt a.2
      match a.1, b.1 with
      | .number, .number => .ok (.number, b.2)
      | .any, .number => .ok (.any, b.2)
      | .number, .any => .ok (.any, b.2)
      | x, y => .error (.runError ("(" ++ x.repr ++ "^" ++ y.repr ++ "): failed to operate"))
    | .mul => do
      let a ← Expression.get_type n left sym tt vt st
      let b ← Expression.get_type n right sym tt vt a.2
      match a.1, b.1 with
      | .number, .number => .ok (.number, b.2)
      | .any, .number => .ok (.any, b.2)
      | .number, .any => .ok (.any, b.2)
      | x, y => .error (.runError ("(" ++ x.repr ++ "*" ++ y.repr ++ "): failed to operate"))
    | .div => do
      let a ← Expression.get_type n left sym tt vt st
      let b ← Expression.get_type n right sym tt vt a.2
      match a.1, b.1 with
      | .number, .number => .ok (.number, b.2)
      | .any, .number => .ok (.any, b.2)
      | .number, .any => .ok (.any, b.2)
      | x, y => .error (.runError ("(" ++ x.repr ++ "/" ++ y.repr ++ "): failed to operate"))
    | .mod => do
      let a ← Expression.get_type n left sym tt vt st
      let b ← Expression.get_type n right sym tt vt a.2
      match a.1, b.1 with
      | .number, .number => .ok (.number, b.2)
      | .any, .number => .ok (.any, b.2)
      | .number, .any => .ok (.any, b.2)
      | x, y => .error (.runError ("(" ++ x.repr ++ "%" ++ y.repr ++ "): failed to operate"))
    | .add => do
      let a ← Expression.get_type n left sym tt vt st
      let b ← Expression.get_type n right sym tt vt a.2
      match a.1, b.1 with
      | .number, .number => .ok (.number, b.2)
      | .any, .number => .ok (.any, b.2)
      | .number, .any => .ok (.any, b.2)
      | x, y => .error (.runError ("(" ++ x.repr ++ "+" ++ y.repr ++ "): failed to operate"))
    | .sub => do
      let a ← Expression.get_type n left sym tt vt st
      let b ← Expression.get_type n right sym tt vt a.2
      match a.1, b.1 with
      | .number, .number => .ok (.number, b.2)
      | .any, .number => .ok (.any, b.2)
      | .number, .any => .ok (.any, b.2)
      | x, y => .error (.runError ("(" ++ x.repr ++ "-" ++ y.repr ++ "): failed to operate"))
    | .lt => do
      let a ← Expression.get_type n left sym tt vt st
      let b ← Expression.get_type n right sym tt vt a.2
      match a.1, b.1 with
      | .number, .number => .ok (.bool, b.2)
      | .str, .str => .ok (.bool, b.2)
      | .char, .char => .ok (.bool, b.2)
      | x, y => .error (.runError ("(" ++ x.repr ++ "<" ++ y.repr ++ "): failed to compare"))
    | .gt => do
      let a ← Expression.get_type n left sym tt vt st
      let b ← Expression.get_type n right sym tt vt a.2
      match a.1, b.1 with
      | .number, .number => .ok (.bool, b.2)
      | .str, .str => .ok (.bool, b.2)
      | .char, .char => .ok (.bool, b.2)
      | x, y => .error (.runError ("(" ++ x.repr ++ ">" ++ y.repr ++ "): failed to compare"))
    | .ltEqual => do
      let a ← Expression.get_type n left sym tt vt st
      let b ← Expression.get_type n right sym tt vt a.2
      match a.1, b.1 with
      | .number, .number => .ok (.bool, b.2)
      | .str, .str => .ok (.bool, b.2)
      | .char, .char => .ok (.bool, b.2)
      | x, y => .error (.runError ("(" ++ x.repr ++ "<=" ++ y.repr ++ "): failed to compare"))
    | .gtEqual => do
      let a ← Expression.get_type n left sym tt vt st
      let b ← Expression.get_type n right sym tt vt a.2
      match a.1, b.1 with
      | .number, .number => .ok (.bool, b.2)
      | .str, .str => .ok (.bool, b.2)
      | .char, .char => .ok (.bool, b.2)
      | x, y => .error (.runError ("(" ++ x.repr ++ ">=" ++ y.repr ++ "): failed to compare"))
    | _ => .ok (.undefined, st)
  termination_by structural fuel _ _ _ _ _ _ _ => fuel

/-- `impl Typer for Index` (`ast.rs`): infer the base type; on `Array`,
*evaluate* the index expression against the value table, truncate, and
return the element type (Rust `Vec::remove` panics when out of range);
`Any` propagates. -/
def Index.get_type : Nat → Expression → Expression → Nat → Nat → Nat → Store → Except Err (Ty × Store)
  | 0, _, _, _, _, _, _ => .error .fuelOut
  | n + 1, id, idx, sym, tt, vt, st => do
    let r ← Expression.get_type n id sym tt vt st
    match r.1 with
    | .array content => do
      let v ← Expression.eval n idx sym vt r.2
      match v.1 with
      | .number q =>
        let i := ratToUsize q
        if h : i < content.length then .ok (content[i], v.2)
        else .error (.fatal s!"removal index (is {i}) should be < len (is {content.length})")
      | c => .error (.runError (c.repr ++ ": invalid index"))
    | .any => .ok (.any, r.2)
    | _ => .error (.runError (Expression.repr id ++ ": can't index"))
  termination_by structural fuel _ _ _ _ _ _ => fuel

/-- The infer pass on statements (`impl Typer for Statement`, `ast.rs`):
only `Expression` statements are inferred; everything else is
`Undefined`. -/
def Statement.get_type : Nat → Statement → Nat → Nat → Nat → Store → Except Err (Ty × Store)
  | 0, _, _, _, _, _ => .error .fuelOut
  | n + 1, s, sym, tt, vt, st =>
    match s with
    | .expression e => Expression.get_type n e sym tt vt st
    | _ => .ok (.undefined, st)

/-- The evaluate pass on expressions (`impl Evaluator for Expression`,
`ast.rs`).  Arguments: fuel, the expression, the symbol- and value-table
addresses and the store.  A `Block` evaluates only its *last*
statement. -/
def Expression.eval : Nat → Expression → Nat → Nat → Store → Except Err (Value × Store)
  | 0, _, _, _, _ => .error .fuelOut
  | n + 1, e, sym, env, st =>
    match e with
    | .number q => .ok (.number q, st)
    | .bool b => .ok (.bool b, st)
    | .str s => .ok (.str s, st)
    | .char c => .ok (.char c, st)
    | .block statements =>
      match statements.getLast? with
      | some s => Statement.eval n s sym env st
      | none => .error (.runError "found empty block")
    | .array content => do
      let r ← evalExprList n content sym env st
      .ok (.array r.1, r.2)
    | .index id idx => Index.eval n id idx sym env st
    | .identifier id =>
      match SymTab.get_name st sym id with
      | some (a, b) =>
        match ValTab.get_value st env a b with
        | .ok v => .ok (v, st)
        | .error e => .error e
      | none => .error (.runError (id ++ ": undeclared use"))
    | .operation left op right => Operation.eval n left op right sym env st
    | .lambda params body => .ok (Lambda.eval params body, st)
    | .call callee args => Call.eval n callee args sym env st
    | _ => .ok (.nil, st)
  termination_by structural fuel _ _ _ _ => fuel

/-- Evaluate a list of expressions in order, collecting the values (the
`Array` arm of `Expression::eval` and the argument loop of
`Call::eval`). -/
def evalExprList : Nat → List Expression → Nat → Nat → Store → Except Err (List Value × Store)
  | 0, _, _, _, _ => .error .fuelOut
  | _ + 1, [], _, _, st => .ok ([], st)
  | n + 1, e :: rest, sym, env, st => do
    let r ← Expression.eval n e sym env st
    let rs ← evalExprList n rest sym env r.2
    .ok (r.1 :: rs.1, rs.2)
  termination_by structural fuel _ _ _ _ => fuel

/-- The evaluate pass on statements (`impl Evaluator for Statement`,
`ast.rs`).  Note the catch-all arm: `Function` and `Assignment`
statements evaluate to `Nil` without any effect — in particular
`Assignment::eval` below is never dispatched to. -/
def Statement.eval : Nat → Statement → Nat → Nat → Store → Except Err (Value × Store)
  | 0, _, _, _, _ => .error .fuelOut
  | n + 1, s, sym, env, st =>
    match s with
    | .expression e => Expression.eval n e sym env st
    | .binding left right => Binding.eval n left right sym env st
    | _ => .ok (.nil, st)
  termination_by structural fuel _ _ _ _ => fuel

/-- `impl Evaluator for Operation` (`ast.rs`): evaluate the left then the
right operand, then apply the operator.  Every arm returns `Ok`;
undefined operand pairs give `Nil`.  `GtEqual` has no `Char` arm (unlike
`Lt`, `Gt` and `LtEqual`). -/
def Operation.eval : Nat → Expression → Operand → Expression → Nat → Nat → Store → Except Err (Value × Store)
  | 0, _, _, _, _, _, _ => .error .fuelOut
  | n + 1, left, op, right, sym, env, st => do
    let a ← Expression.eval n left sym env st
    let b ← Expression.eval n right sym env a.2
    match op, a.1, b.1 with
    | .pow, .number x, .number y => .ok (.number (powf x y), b.2)
    | .pow, _, _ => .ok (.nil, b.2)
    | .mul, .number x, .number y => .ok (.number (x * y), b.2)
    | .mul, _, _ => .ok (.nil, b.2)
    | .div, .number x, .number y => .ok (.number (x / y), b.2)
    | .div, _, _ => .ok (.nil, b.2)
    | .mod, .number x, .number y => .ok (.number (ratRem x y), b.2)
    | .mod, _, _ => .ok (.nil, b.2)
    | .add, .number x, .number y => .ok (.number (x + y), b.2)
    | .add, .array xs, y => .ok (.array (xs ++ [y]), b.2)
    | .add, _, _ => .ok (.nil, b.2)
    | .sub, .number x, .number y => .ok (.number (x - y), b.2)
    | .sub, _, _ => .ok (.nil, b.2)
    | .equal, x, y => .ok (.bool (Value.beq x y), b.2)
    | .nequal, x, y => .ok (.bool (!Value.beq x y), b.2)
    | .lt, .number x, .number y => .ok (.bool (decide (x < y)), b.2)
    | .lt, .str x, .str y => .ok (.bool (decide (x < y)), b.2)
    | .lt, .char x, .char y => .ok (.bool (decide (x < y)), b.2)
    | .lt, .array xs, .array ys => .ok (.bool (decide (xs.length < ys.length)), b.2)
    | .lt, _, _ => .ok (.nil, b.2)
    | .gt, .number x, .number y => .ok (.bool (decide (x > y)), b.2)
    | .gt, .str x, .str y => .ok (.bool (decide (x > y)), b.2)
    | .gt, .char x, .char y => .ok (.bool (decide (x > y)), b.2)
    | .gt, .array xs, .array ys => .ok (.bool (decide (xs.length > ys.length)), b.2)
    | .gt, _, _ => .ok (.nil, b.2)
    | .ltEqual, .number x, .number y => .ok (.bool (decide (x ≤ y)), b.2)
    | .ltEqual, .str x, .str y => .ok (.bool (decide (x ≤ y)), b.2)
    | .ltEqual, .char x, .char y => .ok (.bool (decide (x ≤ y)), b.2)
    | .ltEqual, .array xs, .array ys => .ok (.bool (decide (xs.length ≤ ys.length)), b.2)
    | .ltEqual, _, _ => .ok (.nil, b.2)
    | .gtEqual, .number x, .number y => .ok (.bool (decide (x ≥ y)), b.2)
    | .gtEqual, .str x, .str y => .ok (.bool (decide (x ≥ y)), b.2)
    | .gtEqual, .array xs, .array ys => .ok (.bool (decide (xs.length ≥ ys.length)), b.2)
    | .gtEqual, _, _ => .ok (.nil, b.2)
  termination_by structural fuel _ _ _ _ _ _ => fuel

/-- `impl Evaluator for Call` (`ast.rs`): evaluate the callee; if it is a
`Function`, allocate the local symbol table (child of the *caller's*
symbol table, holding the parameters), evaluate the arguments in the
caller's scope, allocate the local value table (child of the *caller's*
value table, holding the argument values), and evaluate the body block
there.  Any non-`Function` callee yields `Nil`. -/
def Call.eval : Nat → Expression → List Expression → Nat → Nat → Store → Except Err (Value × Store)
  | 0, _, _, _, _, _ => .error .fuelOut
  | n + 1, callee, args, sym, env, st => do
    let c ← Expression.eval n callee sym env st
    match c.1 with
    | .function params body =>
      let ls := SymTab.new c.2 sym params
      do
        let avs ← evalExprList n args sym env ls.2
        let le := ValTab.new avs.2 env avs.1
        Expression.eval n (.block body) ls.1 le.1 le.2
    | _ => .ok (.nil, c.2)
  termination_by structural fuel _ _ _ _ _ => fuel

/-- `impl Evaluator for Index` (`ast.rs`): evaluate the base; on an
`Array`, evaluate the index, truncate the number and return the element
at that position of a *clone* of the array (`content.clone().remove(i)`);
out of range panics (Rust `Vec::remove`); a non-`Number` index is a
`RunError`; a non-`Array` base yields `Nil`. -/
def Index.eval : Nat → Expression → Expression → Nat → Nat → Store → Except Err (Value × Store)
  | 0, _, _, _, _, _ => .error .fuelOut
  | n + 1, id, idx, sym, env, st => do
    let r ← Expression.eval n id sym env st
    match r.1 with
    | .array content => do
      let v ← Expression.eval n idx sym env r.2
      match v.1 with
      | .number q =>
        let i := ratToUsize q
        if h : i < content.length then .ok (content[i], v.2)
        else .error (.fatal s!"removal index (is {i}) should be < len (is {content.length})")
      | c => .error (.runError (c.repr ++ ": invalid index"))
    | _ => .ok (.nil, r.2)
  termination_by structural fuel _ _ _ _ _ => fuel

/-- `impl Evaluator for Binding` (`ast.rs`): re-declare the name (returning
its existing slot), grow the value table if the slot is new, then write
the evaluated right-hand side into slot `(index, 0)`. -/
def Binding.eval : Nat → Expression → Expression → Nat → Nat → Store → Except Err (Value × Store)
  | 0, _, _, _, _, _ => .error .fuelOut
  | n + 1, left, right, sym, env, st =>
    match left with
    | .identifier name =>
      let p := SymTab.add_name st sym name
      let st2 := if ValTab.size p.2 env ≤ p.1 then ValTab.grow p.2 env else p.2
      do
        let r ← Expression.eval n right sym env st2
        match ValTab.set_value r.2 env p.1 0 r.1 with
        | .ok st4 => .ok (.nil, st4)
        | .error e => .error (.runError (e.msg ++ ": error setting value"))
    | _ => .error (.fatal "internal error: entered unreachable code")
  termination_by structural fuel _ _ _ _ _ => fuel

/-- `impl Evaluator for Assignment` (`ast.rs`): resolve the name to its
`(slot, depth)` pair, evaluate the right-hand side and write it through
`set_value` at that depth.  (Dead code in the source: `Statement::eval`
never dispatches here.) -/
def Assignment.eval : Nat → Expression → Expression → Nat → Nat → Store → Except Err (Value × Store)
  | 0, _, _, _, _, _ => .error .fuelOut
  | n + 1, left, right, sym, env, st =>
    match left with
    | .identifier name =>
      match SymTab.get_name st sym name with
      | none => .error (.runError (name ++ ": undeclared variable"))
      | some (a, b) => do
        let r ← Expression.eval n right sym env st
        match ValTab.set_value r.2 env a b r.1 with
        | .ok st2 => .ok (.nil, st2)
        | .error e => .error (.runError (e.msg ++ ": error setting value"))
    | _ => .error (.fatal "internal error: entered unreachable code")
end

/-- The driver loop of `main.rs`: for each top-level statement, in order,
run resolve, then infer, then evaluate; the first error halts the run;
the result is the final statement's value. -/
def runStatements : Nat → List Statement → Nat → Nat → Nat → Store → Except Err (Value × Store)
  | _, [], _, _, _, st => .ok (.nil, st)
  | fuel, s :: rest, sym, tt, vt, st => do
    let st1 ← Statement.visit fuel s sym tt vt st
    let r ← Statement.get_type fuel s sym tt vt st1
    let v ← Statement.eval fuel s sym vt r.2
    match rest with
    | [] => .ok v
    | _ => runStatements fuel rest sym tt vt v.2

/-- The fresh global scope triple created once by `main.rs`
(`SymTab::new_global`, `TypeTab::new_global`, `ValTab::new_global`):
parentless empty nodes at address 0 of each table. -/
def initialStore : Store :=
  ⟨[⟨none, []⟩], [⟨none, []⟩], [⟨none, []⟩]⟩

/-- Run a program as `main.rs` does, over fresh global tables, returning
the final statement's value. -/
def runProgram (fuel : Nat) (prog : List Statement) : Except Err Value :=
  (runStatements fuel prog 0 0 0 initialStore).map Prod.fst

/-- The value component of an expression evaluation. -/
def evalV (fuel : Nat) (e : Expression) (sym env : Nat) (st : Store) : Except Err Value :=
  (Expression.eval fuel e sym env st).map Prod.fst

/-- Token kinds (spec §3). -/
inductive TokenType
  | intLiteral
  | floatLiteral
  | boolLiteral
  | stringLiteral
  | charLiteral
  | identifier
  | symbol
  | operator
  | keyword
  | indent
  | eol
  | eof
  deriving DecidableEq

/-- A token (spec §3): kind, content text and source position. -/
structure Token where
  token_type : TokenType
  content : String
  position : Nat

/-- Parser errors.  Modelled from the spec: `ParseError{position, message}`
(spec §4.1, §7); the parser error source file is not among the sources.
`fatal` models a panic (`unwrap`); `fuelOut` is the embedding's fuel
artifact. -/
inductive PErr
  | parseError (position : Option Nat) (msg : String)
  | fatal (msg : String)
  | fuelOut

/-- The message of a parser error (its `Display` rendering, modelled). -/
def PErr.msg : PErr → String
  | .parseError _ m => m
  | .fatal m => m
  | .fuelOut => "out of fuel"

/-- Modelled from the spec: the token `Traveler` (spec §3, §6) — an ordered
token sequence consumed positionally with single-step pushback; its
source file is not among the sources.  `remaining` counts the tokens not
yet consumed ("fewer than 2 remaining" is the stop sentinel, spec §6);
reads past the end yield the EOF sentinel token. -/
structure Traveler where
  tokens : List Token
  top : Nat

/-- The EOF sentinel token returned for out-of-range reads. -/
def eofToken : Token := ⟨.eof, "", 0⟩

/-- Modelled from the spec: the token at the cursor. -/
def Traveler.current (t : Traveler) : Token :=
  t.tokens.getD t.top eofToken

/-- Modelled from the spec: the content of the current token. -/
def Traveler.current_content (t : Traveler) : String :=
  t.current.content

/-- Modelled from the spec: advance the cursor one token. -/
def Traveler.next (t : Traveler) : Traveler :=
  { t with top := t.top + 1 }

/-- Modelled from the spec: push back one token. -/
def Traveler.prev (t : Traveler) : Traveler :=
  { t with top := t.top - 1 }

/-- Modelled from the spec: tokens not yet consumed. -/
def Traveler.remaining (t : Traveler) : Nat :=
  t.tokens.length - t.top

/-- Modelled from the spec: demand the current token's kind, yielding its
content. -/
def Traveler.expect (t : Traveler) (k : TokenType) : Except PErr String :=
  if t.current.token_type = k then .ok t.current.content
  else .error (.parseError (some t.current.position) ("expected type, found: " ++ t.current.content))

/-- Modelled from the spec: demand the current token's content. -/
def Traveler.expect_content (t : Traveler) (c : String) : Except PErr Unit :=
  if t.current.content = c then .ok ()
  else .error (.parseError (some t.current.position) ("expected: " ++ c ++ ", found: " ++ t.current.content))

/-- `Operand::from_str` (`ast.rs`): map an operator token to its tag and
precedence rank (lower rank binds tighter). -/
def Operand.from_str : String → Option (Operand × Nat)
  | "^" => some (.pow, 0)
  | "*" => some (.mul, 1)
  | "/" => some (.div, 1)
  | "%" => some (.mod, 1)
  | "+" => some (.add, 2)
  | "-" => some (.sub, 2)
  | "==" => some (.equal, 3)
  | "!=" => some (.nequal, 3)
  | "<" => some (.lt, 4)
  | ">" => some (.gt, 4)
  | "<=" => some (.ltEqual, 4)
  | ">=" => some (.gtEqual, 4)
  | _ => none

/-- `parse::<f64>()` on a literal token's content, modelled for unsigned
decimal digit strings (where the IEEE parse is exact). -/
def parseNum (s : String) : Option Rat :=
  let cs := s.toList
  if cs ≠ [] ∧ cs.all Char.isDigit then
    some ((cs.foldl (fun acc c => acc * 10 + (c.toNat - 48)) 0 : Nat) : Rat)
  else none

mutual
/-- `Parser::parse` (`parser.rs`): while more than one token remains, skip
whitespace and read a statement. -/
def Parser.parse : Nat → Traveler → Except PErr (List Statement × Traveler)
  | 0, _ => .error .fuelOut
  | n + 1, tr =>
    if 1 < tr.remaining then do
      let tr ← Parser.skip_whitespace n tr
      let s ← Parser.statement n tr
      let rest ← Parser.parse n s.2
      .ok (s.1 :: rest.1, rest.2)
    else .ok ([], tr)
  termination_by structural fuel _ => fuel

/-- `Parser::skip_whitespace` (`parser.rs`): consume newline/EOL/indent
tokens, stopping early when fewer than two tokens remain. -/
def Parser.skip_whitespace : Nat → Traveler → Except PErr Traveler
  | 0, _ => .error .fuelOut
  | n + 1, tr =>
    if tr.current_content = "\n" ∨ tr.current.token_type = .eol ∨ tr.current.token_type = .indent then
      let tr := tr.next
      if tr.remaining < 2 then .ok tr
      else Parser.skip_whitespace n tr
    else .ok tr
  termination_by structural fuel _ => fuel

/-- `Parser::expression` (`parser.rs`): a term, then an operation chain if
an operator token follows. -/
def Parser.expression : Nat → Traveler → Except PErr (Expression × Traveler)
  | 0, _ => .error .fuelOut
  | n + 1, tr => do
    let tr ← Parser.skip_whitespace n tr
    let t ← Parser.term n tr
    match t.1 with
    | .eof => .ok t
    | e =>
      if 1 < t.2.remaining then do
        let tr ← Parser.skip_whitespace n t.2
        if tr.current.token_type = .operator then Parser.operation n e tr
        else .ok (e, tr)
      else .ok t
  termination_by structural fuel _ => fuel

/-- `Parser::term` (`parser.rs`): literals, identifiers (with index/call
chaining), parenthesized expressions, array literals and lambdas. -/
def Parser.term : Nat → Traveler → Except PErr (Expression × Traveler)
  | 0, _ => .error .fuelOut
  | n + 1, tr => do
    let tr ← Parser.skip_whitespace n tr
    if tr.remaining < 2 then .ok (.eof, tr)
    else
      match tr.current.token_type with
      | .intLiteral =>
        match parseNum tr.current_content with
        | some q => .ok (.number q, tr.next)
        | none => .error (.fatal "invalid float literal")
      | .floatLiteral =>
        match parseNum tr.current_content with
        | some q => .ok (.number q, tr.next)
        | none => .error (.fatal "invalid float literal")
      | .boolLiteral => .ok (.bool (tr.current_content = "true"), tr.next)
      | .stringLiteral => .ok (.str tr.current_content, tr.next)
      | .charLiteral =>
        match tr.current_content.toList with
        | c :: _ => .ok (.char c, tr.next)
        | [] => .error (.fatal "cannot remove a char from the end of a string")
      | .identifier =>
        let a := Expression.identifier tr.current_content
        let tr := tr.next
        if 1 < tr.remaining then
          match tr.current_content with
          | "\x7d" => .ok (a, tr)
          | "]" => .ok (a, tr)
          | "," => .ok (a, tr)
          | ")" => .ok (a, tr)
          | "[" => Parser.index n a tr
          | _ => Parser.try_call n a tr
        else .ok (a, tr)
      | .symbol =>
        match tr.current_content with
        | "(" =>
          let tr := tr.next
          if tr.current_content = ")" then
            .error (.parseError (some tr.current.position) "illegal empty clause '()'")
          else do
            let a ← Parser.expression n tr
            let tr ← Parser.skip_whitespace n a.2
            let _ ← tr.expect_content ")"
            let tr := tr.next
            if tr.current_content = "[" then Parser.index n a.1 tr
            else if 1 < tr.remaining then Parser.try_call n a.1 tr
            else .ok (a.1, tr)
        | "\x7b" => Parser.array n tr
        | c => .error (.parseError (some tr.current.position) ("unexpected symbol: " ++ c))
      | .keyword =>
        match tr.current_content with
        | "fun" => Parser.lambda n tr
        | k => .error (.parseError (some tr.current.position) ("unexpected keyword: " ++ k))
      | _ => .error (.parseError (some tr.current.position) ("unexpected: " ++ tr.current_content))
  termination_by structural fuel _ => fuel

/-- `Parser::index` (`parser.rs`): parse `[ expression ]` after a base. -/
def Parser.index : Nat → Expression → Traveler → Except PErr (Expression × Traveler)
  | 0, _, _ => .error .fuelOut
  | n + 1, id, tr => do
    let tr := tr.next
    let ix ← Parser.expression n tr
    let _ ← ix.2.expect_content "]"
    .ok (.index id ix.1, ix.2.next)
  termination_by structural fuel _ _ => fuel

/-- `Parser::try_call` (`parser.rs`): one-token lookahead deciding whether
an identifier (or parenthesized expression) is being called. -/
def Parser.try_call : Nat → Expression → Traveler → Except PErr (Expression × Traveler)
  | 0, _, _ => .error .fuelOut
  | n + 1, callee, tr =>
    match tr.current.token_type with
    | .intLiteral => Parser.call n callee tr
    | .floatLiteral => Parser.call n callee tr
    | .boolLiteral => Parser.call n callee tr
    | .stringLiteral => Parser.call n callee tr
    | .charLiteral => Parser.call n callee tr
    | .identifier => Parser.call n callee tr
    | .symbol =>
      match tr.current_content with
      | "(" => Parser.call n callee tr
      | "\x7b" => Parser.call n callee tr
      | c => .error (.parseError (some tr.current.position) ("unexpected symbol: " ++ c))
    | _ => .ok (callee, tr)
  termination_by structural fuel _ _ => fuel

/-- The element loop of `Parser::array` (`parser.rs`): comma-separated
expressions; a bare non-comma-preceded expression after the first closes
the literal with one-token pushback. -/
def Parser.arrayLoop : Nat → List Expression → Nat → Traveler → Except PErr (List Expression × Traveler)
  | 0, _, _, _ => .error .fuelOut
  | n + 1, content, acc, tr =>
    if tr.current_content = "\x7d" then .ok (content, tr)
    else if tr.current_content = "," then do
      let tr := tr.next
      let e ← Parser.expression n tr
      Parser.arrayLoop n (content ++ [e.1]) (acc + 1) e.2
    else if acc = 0 then do
      let e ← Parser.expression n tr
      Parser.arrayLoop n (content ++ [e.1]) (acc + 1) e.2
    else
      let tr := tr.prev
      let tr := if tr.current_content ≠ "," then tr.next else tr
      .ok (content, tr)
  termination_by structural fuel _ _ _ => fuel

/-- `Parser::array` (`parser.rs`): `{ ... }` array literal, optionally
chained into an index. -/
def Parser.array : Nat → Traveler → Except PErr (Expression × Traveler)
  | 0, _ => .error .fuelOut
  | n + 1, tr => do
    let tr := tr.next
    let c ← Parser.arrayLoop n [] 0 tr
    let tr := c.2.next
    if tr.current_content = "[" then Parser.index n (.array c.1) tr
    else .ok (.array c.1, tr)
  termination_by structural fuel _ => fuel

/-- The parameter loop of `Parser::lambda` (`parser.rs`): identifiers up to
the `->` marker. -/
def Parser.lambdaParams : Nat → List String → Traveler → Except PErr (List String × Traveler)
  | 0, _, _ => .error .fuelOut
  | n + 1, params, tr =>
    if tr.current_content = "->" then .ok (params, tr)
    else do
      let p ← tr.expect .identifier
      let tr := tr.next
      if tr.current.token_type = .eol ∨ tr.current.token_type = .eof then
        .error (.parseError (some tr.current.position) "expected '=' found eol/eof")
      else Parser.lambdaParams n (params ++ [p]) tr
  termination_by structural fuel _ _ => fuel

/-- `Parser::lambda` (`parser.rs`): `fun` params `->` body, the body being
a block when a newline follows. -/
def Parser.lambda : Nat → Traveler → Except PErr (Expression × Traveler)
  | 0, _ => .error .fuelOut
  | n + 1, tr => do
    let tr := tr.next
    let ps ← Parser.lambdaParams n [] tr
    let tr := ps.2.next
    if tr.current_content = "\n" then do
      let b ← Parser.block n tr
      .ok (.lambda ps.1 b.1, b.2)
    else do
      let b ← Parser.expression n tr
      .ok (.lambda ps.1 b.1, b.2)
  termination_by structural fuel _ => fuel

/-- The argument loop of `Parser::call` (`parser.rs`): argument
expressions up to a line break, mirroring the array boundary
heuristic. -/
def Parser.callLoop : Nat → List Expression → Nat → Traveler → Except PErr (List Expression × Traveler)
  | 0, _, _, _ => .error .fuelOut
  | n + 1, args, acc, tr =>
    if tr.current_content = "\n" then .ok (args, tr)
    else if tr.current_content = "," then do
      let tr := tr.next
      let e ← Parser.expression n tr
      match e.1 with
      | .eof => .ok (args, e.2)
      | x => Parser.callLoop n (args ++ [x]) (acc + 1) e.2
    else if acc = 0 then do
      let e ← Parser.expression n tr
      match e.1 with
      | .eof => .ok (args, e.2)
      | x => Parser.callLoop n (args ++ [x]) (acc + 1) e.2
    else
      let tr := tr.prev
      let tr := if tr.current_content ≠ "!" ∨ tr.current_content ≠ "," then tr.next else tr
      .ok (args, tr)
  termination_by structural fuel _ _ _ => fuel

/-- `Parser::call` (`parser.rs`): build a `Call` node from the argument
loop. -/
def Parser.call : Nat → Expression → Traveler → Except PErr (Expression × Traveler)
  | 0, _, _ => .error .fuelOut
  | n + 1, caller, tr => do
    let a ← Parser.callLoop n [] 0 tr
    .ok (.call caller a.1, a.2)
  termination_by structural fuel _ _ => fuel

/-- The common tail of the token-capture loop of `Parser::block`
(`parser.rs`): stop when fewer than two tokens remain, otherwise push the
current token and continue. -/
def Parser.blockTail : Nat → List Token → Traveler → Except PErr (List Token × Traveler)
  | 0, _, _ => .error .fuelOut
  | n + 1, stack, tr =>
    if tr.remaining < 2 then .ok (stack, tr)
    else Parser.blockLoop n (stack ++ [tr.current]) tr.next
  termination_by structural fuel _ _ => fuel

/-- The token-capture loop of `Parser::block` (`parser.rs`): gather the
indented sub-stream. -/
def Parser.blockLoop : Nat → List Token → Traveler → Except PErr (List Token × Traveler)
  | 0, _, _ => .error .fuelOut
  | n + 1, stack, tr =>
    if tr.current.token_type = .indent then
      let tr := tr.next
      if tr.current_content = "\n" then .ok (stack, tr.next)
      else Parser.blockTail n stack tr
    else if tr.current_content = "\n" then
      let stack := stack ++ [tr.current]
      let tr := tr.next
      if tr.current.token_type = .indent then Parser.blockTail n stack tr.next
      else .ok (stack, tr)
    else Parser.blockTail n stack tr
  termination_by structural fuel _ _ => fuel

/-- `Parser::block` (`parser.rs`): capture the indented sub-stream and
parse it with a fresh sub-parser. -/
def Parser.block : Nat → Traveler → Except PErr (Expression × Traveler)
  | 0, _ => .error .fuelOut
  | n + 1, tr => do
    let c ← Parser.blockLoop n [] tr
    match Parser.parse n ⟨c.1, 0⟩ with
    | .ok s => .ok (.block s.1, c.2)
    | .error why => .error (.parseError none (PErr.msg why))
  termination_by structural fuel _ => fuel

/-- The parameter loop of `Parser::binding` (`parser.rs`): identifiers up
to the `=` sign of a function definition. -/
def Parser.bindingParams : Nat → List String → Traveler → Except PErr (List String × Traveler)
  | 0, _, _ => .error .fuelOut
  | n + 1, params, tr =>
    if tr.current_content = "=" then .ok (params, tr)
    else do
      let p ← tr.expect .identifier
      let tr := tr.next
      if tr.current.token_type = .eol ∨ tr.current.token_type = .eof then
        .error (.parseError (some tr.current.position) "expected '=' found eol/eof")
      else Parser.bindingParams n (params ++ [p]) tr
  termination_by structural fuel _ _ => fuel

/-- `Parser::binding` (`parser.rs`): after `let`, an identifier followed by
another identifier starts a function definition; otherwise a plain value
binding. -/
def Parser.binding : Nat → Traveler → Except PErr (Statement × Traveler)
  | 0, _ => .error .fuelOut
  | n + 1, tr => do
    let tr := tr.next
    let left ← tr.expect .identifier
    let tr := tr.next
    if tr.current.token_type = .identifier then do
      let ps ← Parser.bindingParams n [] tr
      let tr := ps.2.next
      match tr.current.token_type with
      | .eol => do
        let tr := tr.next
        let b ← Parser.block n tr
        .ok (.function left ps.1 b.1, b.2)
      | _ => do
        let b ← Parser.expression n tr
        .ok (.function left ps.1 b.1, b.2)
    else do
      let tr ← Parser.skip_whitespace n tr
      let _ ← tr.expect_content "="
      let tr := tr.next
      let right ← Parser.expression n tr
      .ok (.binding (.identifier left) right.1, right.2)
  termination_by structural fuel _ => fuel

/-- `Parser::assignment` (`parser.rs`): `name =` followed by the right-hand
expression. -/
def Parser.assignment : Nat → Expression → Traveler → Except PErr (Statement × Traveler)
  | 0, _, _ => .error .fuelOut
  | n + 1, left, tr => do
    let tr := tr.next
    let right ← Parser.expression n tr
    .ok (.assignment left right.1, right.2)
  termination_by structural fuel _ _ => fuel

/-- `Parser::statement` (`parser.rs`): dispatch on the current token —
`let` starts a binding-or-function, identifier-`=` an assignment,
anything else a bare expression statement. -/
def Parser.statement : Nat → Traveler → Except PErr (Statement × Traveler)
  | 0, _ => .error .fuelOut
  | n + 1, tr => do
    let tr ← Parser.skip_whitespace n tr
    match tr.current.token_type with
    | .symbol =>
      if tr.current_content = "\n" then Parser.statement n tr.next
      else do
        let e ← Parser.expression n tr
        .ok (.expression e.1, e.2)
    | .identifier =>
      let a := Expression.identifier tr.current_content
      let tr := tr.next
      if tr.current_content = "=" then Parser.assignment n a tr
      else do
        let tr := tr.prev
        let e ← Parser.expression n tr
        .ok (.expression e.1, e.2)
    | .keyword =>
      if tr.current_content = "let" then Parser.binding n tr
      else do
        let e ← Parser.expression n tr
        .ok (.expression e.1, e.2)
    | _ => do
      let e ← Parser.expression n tr
      .ok (.expression e.1, e.2)
  termination_by structural fuel _ => fuel

/-- `Parser::operation` (`parser.rs`): seed the expression stack with the
first term and the operator stack with the first operator, read one more
term, then run the fold loop. -/
def Parser.operation : Nat → Expression → Traveler → Except PErr (Expression × Traveler)
  | 0, _, _ => .error .fuelOut
  | n + 1, e, tr =>
    match Operand.from_str tr.current_content with
    | none => .error (.fatal "called unwrap on a None value")
    | some op0 => do
      let tr := tr.next
      let tr := if tr.current_content = "\n" then tr.next else tr
      let t ← Parser.term n tr
      Parser.operationLoop n [t.1, e] [op0] false t.2
  termination_by structural fuel _ _ => fuel

/-- The fold loop of `Parser::operation` (`parser.rs`): while more than one
expression is stacked, read operators greedily; a new operator whose rank
is greater than or equal to the top of the operator stack folds the top
two expressions with the stacked operator before being pushed (so equal
ranks fold left-to-right); a lower-ranked operator is pushed and the loop
body falls through to a fold; once input is exhausted, the remaining
pairs fold in stack order. -/
def Parser.operationLoop : Nat → List Expression → List (Operand × Nat) → Bool → Traveler → Except PErr (Expression × Traveler)
  | 0, _, _, _, _ => .error .fuelOut
  | n + 1, exStack, opStack, done, tr =>
    if 1 < exStack.length then
      if done = false then
        if tr.current.token_type ≠ .operator then
          Parser.operationLoop n exStack opStack true tr
        else
          match Operand.from_str tr.current_content with
          | none => .error (.fatal "called unwrap on a None value")
          | some (op, prec) =>
            let tr := tr.next
            match opStack with
            | [] => .error (.fatal "called unwrap on a None value")
            | top :: restOps =>
              if top.2 ≤ prec then
                match exStack with
                | l :: r :: restEx => do
                  let t ← Parser.term n tr
                  Parser.operationLoop n (t.1 :: .operation r top.1 l :: restEx) ((op, prec) :: restOps) done t.2
                | _ => .error (.fatal "called unwrap on a None value")
              else do
                let t ← Parser.term n tr
                match t.1 :: exStack, (op, prec) :: top :: restOps with
                | l :: r :: restEx, o :: newRest =>
                  Parser.operationLoop n (.operation r o.1 l :: restEx) newRest done t.2
                | _, _ => .error (.fatal "called unwrap on a None value")
      else
        match exStack, opStack with
        | l :: r :: restEx, o :: restOps =>
          Parser.operationLoop n (.operation r o.1 l :: restEx) restOps done tr
        | _, _ => .error (.fatal "called unwrap on a None value")
    else
      match exStack with
      | e :: _ => .ok (e, tr)
      | [] => .error (.fatal "called unwrap on a None value")
  termination_by structural fuel _ _ _ _ => fuel
end

/-- The statement-list component of a parse. -/
def parsedStmts (fuel : Nat) (tr : Traveler) : Except PErr (List Statement) :=
  (Parser.parse fuel tr).map Prod.fst

/-! Concrete programs, stores and token streams used by the theorems. -/

/-- The three-statement end-to-end program `let a = 123`,
`let add a b = a + b`, `add 1, 2` (as `Parser::parse` produces it). -/
def progC1 : List Statement :=
  [ .binding (.identifier "a") (.number 123),
    .function "add" ["a", "b"] (.operation (.identifier "a") .add (.identifier "b")),
    .expression (.call (.identifier "add") [.number 1, .number 2]) ]

/-- The program `let x = 1`, `x = 2`, `x`. -/
def progC4 : List Statement :=
  [ .binding (.identifier "x") (.number 1),
    .assignment (.identifier "x") (.number 2),
    .expression (.identifier "x") ]

/-- The program `let f = fun a b -> b`, `f 1` (an arity-mismatched
call). -/
def progC3 : List Statement :=
  [ .binding (.identifier "f") (.lambda ["a", "b"] (.identifier "b")),
    .expression (.call (.identifier "f") [.number 1]) ]

/-- The `Function` value of `fun x -> outer`: parameters and body only, no
captured scope. -/
def outerFn : Value := .function ["x"] [.expression (.identifier "outer")]

/-- A store with a defining (global) scope binding `outer ↦ u` and `f ↦`
the `fun x -> outer` function value, plus a distinct calling scope
(address 1, child of the global scope) whose own `outer` is bound to
`w`. -/
def stC2 (u w : Value) : Store :=
  ⟨[⟨none, ["outer", "f"]⟩, ⟨some 0, ["outer"]⟩],
   [⟨none, [.any, .any]⟩, ⟨some 0, [.any]⟩],
   [⟨none, [u, outerFn]⟩, ⟨some 0, [w]⟩]⟩

/-- `stC2` after a call to `f` with one argument: `Call::eval` has
allocated a local symbol table and a local value table, both parented at
the *calling* scope (address 1). -/
def stC2after (u w : Value) : Store :=
  ⟨[⟨none, ["outer", "f"]⟩, ⟨some 0, ["outer"]⟩, ⟨some 1, ["x"]⟩],
   [⟨none, [.any, .any]⟩, ⟨some 0, [.any]⟩],
   [⟨none, [u, outerFn]⟩, ⟨some 0, [w]⟩, ⟨some 1, [.number 5]⟩]⟩

/-- The `Function` value bound to `f` by `progC3`. -/
def fnC3 : Value := .function ["a", "b"] [.expression (.identifier "b")]

/-- The store at the moment `progC3`'s call evaluates its body: the local
symbol table (address 1) holds both parameters `a` and `b`, but the local
value table (address 1) holds only the single argument value. -/
def stC3x : Store :=
  ⟨[⟨none, ["f"]⟩, ⟨some 0, ["a", "b"]⟩],
   [⟨none, [.undefined]⟩],
   [⟨none, [fnC3]⟩, ⟨some 0, [.number 1]⟩]⟩

/-- The global store after `let x = 1`. -/
def stC4mid : Store :=
  ⟨[⟨none, ["x"]⟩], [⟨none, [.number]⟩], [⟨none, [.number 1]⟩]⟩

/-- `stC4mid` after writing `2` into `x`'s slot. -/
def stC4fin : Store :=
  ⟨[⟨none, ["x"]⟩], [⟨none, [.number]⟩], [⟨none, [.number 2]⟩]⟩

/-- A global store whose single binding `x` has inferred type `Any`. -/
def stC5 : Store :=
  ⟨[⟨none, ["x"]⟩], [⟨none, [.any]⟩], [⟨none, [.nil]⟩]⟩

/-- A global store whose single binding `a` holds an array of the given
contents. -/
def stC8 (content : List Value) : Store :=
  ⟨[⟨none, ["a"]⟩], [⟨none, [.any]⟩], [⟨none, [.array content]⟩]⟩

/-- A one-node global store with the given parents and payloads. -/
def mkGlobal (p1 : Option Nat) (ns : List String) (p2 : Option Nat) (ts : List Ty)
    (p3 : Option Nat) (vs : List Value) : Store :=
  ⟨[⟨p1, ns⟩], [⟨p2, ts⟩], [⟨p3, vs⟩]⟩

/-- The token stream of `1 + 2 * 3`. -/
def toksPrec : List Token :=
  [⟨.intLiteral, "1", 0⟩, ⟨.operator, "+", 1⟩, ⟨.intLiteral, "2", 2⟩,
   ⟨.operator, "*", 3⟩, ⟨.intLiteral, "3", 4⟩, ⟨.eof, "", 5⟩]

/-- The token stream of `8 - 3 - 2`. -/
def toksAssoc : List Token :=
  [⟨.intLiteral, "8", 0⟩, ⟨.operator, "-", 1⟩, ⟨.intLiteral, "3", 2⟩,
   ⟨.operator, "-", 3⟩, ⟨.intLiteral, "2", 4⟩, ⟨.eof, "", 5⟩]

/-! Theorems. -/

/-- C1: the claim says the three-statement program `let a = 123`,
`let add a b = a + b`, `add 1, 2` runs to `Number(3)` through the three
per-statement passes; the spec's end-to-end test states the same.  The
code cannot do this: `Statement::visit` and `Statement::eval` send
`Function` statements to their catch-all arms, so `add` is never
declared, and the third statement's resolve pass fails with
`add: undeclared use`.  This theorem evaluates the pipeline at that
failing input. -/
theorem c1_function_statements_are_noops_run_fails :
    runProgram 20 progC1 = .error (.runError "add: undeclared use") := rfl

/-- C2 (amended): a `Function` value produced by evaluating a lambda
carries only parameters and body — no captured scope — and `Call::eval`
parents the call's fresh scope pair at the *caller's* tables, so a free
name in the body resolves through the call-site chain (dynamic scoping).
For every pair of values `u` (the defining scope's `outer`) and `w` (the
calling scope's `outer`): the lambda evaluates to the scope-less
function value, the defining scope holds `u`, and calling `f` from the
calling scope yields `w`, with the local tables allocated as children of
the calling scope. -/
theorem c2_call_scope_parented_at_call_site (u w : Value) :
    Expression.eval 20 (.lambda ["x"] (.identifier "outer")) 0 0 (stC2 u w) =
      .ok (outerFn, stC2 u w) ∧
    ValTab.get_value (stC2 u w) 0 0 0 = .ok u ∧
    Expression.eval 20 (.call (.identifier "f") [.number 5]) 1 1 (stC2 u w) =
      .ok (w, stC2after u w) :=
  ⟨rfl, rfl, rfl⟩

/-- C2 (counterexample): with the defining scope's `outer` bound to 10 and
the calling scope's `outer` bound to 20, the body of `fun x -> outer`
defined in the former and called from the latter reads 20 — the
call-site binding — not the defining scope's 10, refuting the claim that
the call is evaluated in a child of the lambda's defining scope. -/
theorem c2_lambda_reads_call_site_binding :
    Expression.eval 20 (.lambda ["x"] (.identifier "outer")) 0 0
        (stC2 (.number 10) (.number 20)) =
      .ok (outerFn, stC2 (.number 10) (.number 20)) ∧
    ValTab.get_value (stC2 (.number 10) (.number 20)) 0 0 0 = .ok (.number 10) ∧
    evalV 20 (.call (.identifier "f") [.number 5]) 1 1 (stC2 (.number 10) (.number 20)) =
      .ok (.number 20) ∧
    Value.number 20 ≠ Value.number 10 := by
  refine ⟨rfl, rfl, rfl, ?_⟩
  intro h
  injection h with h
  norm_num at h

/-- C3 (counterexample): running `let f = fun a b -> b`, `f 1` reaches a
state in which the call's local symbol table resolves `b` to slot
`(1, 0)` while the matching local value table has only one slot, so the
value lookup for a resolved name falls out of range and the run aborts
with that error — the lock-step invariant does not hold at every point
of a run. -/
theorem c3_arity_mismatched_call_breaks_lock_step :
    runProgram 20 progC3 = .error (.runError "can't get value of invalid value index: 1") ∧
    SymTab.get_name stC3x 1 "b" = some (1, 0) ∧
    ValTab.get_value stC3x 1 1 0 =
      .error (.runError "can't get value of invalid value index: 1") :=
  ⟨rfl, rfl, rfl⟩

/-- C4: the claim says evaluating an `Assignment` statement writes the
right-hand value into the resolved `(slot, depth)` so a later read sees
it.  `Assignment::eval` does exactly that (second and third conjuncts),
but `Statement::eval` never dispatches to it — its catch-all arm returns
`Nil` — so the pipeline run of `let x = 1`, `x = 2`, `x` yields
`Number(1)`, not `Number(2)` (first conjunct): the implemented write is
dead code. -/
theorem c4_assignment_eval_writes_but_is_never_dispatched :
    runProgram 20 progC4 = .ok (.number 1) ∧
    Assignment.eval 20 (.identifier "x") (.number 2) 0 0 stC4mid = .ok (.nil, stC4fin) ∧
    ValTab.get_value stC4fin 0 0 0 = .ok (.number 2) :=
  ⟨rfl, rfl, rfl⟩

/-- C6: the claim says all four comparison operators yield a `Bool` on
`Char`/`Char`.  The code's own typing rule agrees (`Char >= Char` infers
`Bool`, first conjunct), but `Operation::eval` has no `Char` arm for
`GtEqual`, so `'a' >= 'b'` evaluates to `Nil` (second conjunct), unlike
`LtEqual`, which yields a `Bool` as claimed (third conjunct). -/
theorem c6_gtequal_char_evals_nil_against_own_typing :
    Operation.get_type 5 (.char 'a') .gtEqual (.char 'b') 0 0 0 initialStore =
      .ok (.bool, initialStore) ∧
    Operation.eval 5 (.char 'a') .gtEqual (.char 'b') 0 0 initialStore =
      .ok (.nil, initialStore) ∧
    Operation.eval 5 (.char 'a') .ltEqual (.char 'b') 0 0 initialStore =
      .ok (.bool true, initialStore) :=
  ⟨rfl, rfl, rfl⟩

/-- C7: the operation parser folds on a greater-or-equal precedence rank,
so lower ranks bind tighter and equal ranks fold left-to-right:
`1 + 2 * 3` parses as `Add(1, Mul(2, 3))`, `8 - 3 - 2` parses as
`Sub(Sub(8, 3), 2)` and evaluates to `Number(3)`. -/
theorem c7_operation_parser_folds_ge_left_assoc :
    parsedStmts 20 ⟨toksPrec, 0⟩ =
      .ok [.expression (.operation (.number 1) .add
        (.operation (.number 2) .mul (.number 3)))] ∧
    parsedStmts 20 ⟨toksAssoc, 0⟩ =
      .ok [.expression (.operation (.operation (.number 8) .sub (.number 3)) .sub (.number 2))] ∧
    runProgram 20
        [.expression (.operation (.operation (.number 8) .sub (.number 3)) .sub (.number 2))] =
      .ok (.number 3) := by
  refine ⟨rfl, rfl, ?_⟩
  have h : ((8 : Rat) - 3) - 2 = 3 := by norm_num
  calc runProgram 20
        [.expression (.operation (.operation (.number 8) .sub (.number 3)) .sub (.number 2))]
      = .ok (.number (((8 : Rat) - 3) - 2)) := rfl
    _ = .ok (.number 3) := by rw [h]

/-- C9 (counterexample): the claim says a call on a non-function callee
returns a `RuntimeError`; evaluating `1()` in fact succeeds with `Nil`
(`Call::eval`'s catch-all arm), with the store untouched. -/
theorem c9_nonfunction_call_no_error :
    Expression.eval 5 (.call (.number 1) []) 0 0 initialStore = .ok (.nil, initialStore) :=
  rfl

/-- Bind on a successful `Except` computation steps into the
continuation. -/
theorem bindOk {ε α β : Type} (a : α) (f : α → Except ε β) :
    ((Except.ok a : Except ε α) >>= f) = f a := rfl

/-- Bind on a failed `Except` computation propagates the error. -/
theorem bindErr {ε α β : Type} (e : ε) (f : α → Except ε β) :
    ((Except.error e : Except ε α) >>= f) = Except.error e := rfl

/-- C5 (amended): for the six arithmetic operators, type inference on an
operand pair where one side is `Any` and the other `Number` succeeds and
propagates `Any`; the four comparison operators have no `Any` rule and
fail on such a pair. -/
theorem c5_any_propagation_arith_only
    (n : Nat) (l r : Expression) (op : Operand) (sym tt vt : Nat)
    (st st1 st2 : Store) (ta tb : Ty)
    (hl : Expression.get_type n l sym tt vt st = .ok (ta, st1))
    (hr : Expression.get_type n r sym tt vt st1 = .ok (tb, st2))
    (hab : (ta = .any ∧ tb = .number) ∨ (ta = .number ∧ tb = .any)) :
    ((op = .pow ∨ op = .mul ∨ op = .div ∨ op = .mod ∨ op = .add ∨ op = .sub) →
      Operation.get_type (n + 1) l op r sym tt vt st = .ok (.any, st2)) ∧
    ((op = .lt ∨ op = .gt ∨ op = .ltEqual ∨ op = .gtEqual) →
      resultOk (Operation.get_type (n + 1) l op r sym tt vt st) = false) := by
  refine ⟨fun hop => ?_, fun hop => ?_⟩
  · rcases hab with ⟨ha, hb⟩ | ⟨ha, hb⟩ <;> subst ha hb <;>
      rcases hop with h | h | h | h | h | h <;> subst h <;>
      simp [Operation.get_type, hl, hr, bindOk]
  · rcases hab with ⟨ha, hb⟩ | ⟨ha, hb⟩ <;> subst ha hb <;>
      rcases hop with h | h | h | h <;> subst h <;>
      simp [Operation.get_type, hl, hr, bindOk, resultOk]

/-- C8: evaluating `a[q]` where `a` holds an `Array`: when the truncated
index is in range the element at that 0-based position is returned and
the store is untouched; when it is at or beyond the length, evaluation
is a fatal panic (Rust `Vec::remove`), not a recoverable `RunError`. -/
theorem c8_index_in_range_element_out_of_range_panic
    (content : List Value) (q : Rat) (n : Nat) :
    (∀ v : Value, content[ratToUsize q]? = some v →
      Index.eval (n + 2) (.identifier "a") (.number q) 0 0 (stC8 content) =
        .ok (v, stC8 content)) ∧
    (content.length ≤ ratToUsize q →
      Index.eval (n + 2) (.identifier "a") (.number q) 0 0 (stC8 content) =
        .error (.fatal s!"removal index (is {ratToUsize q}) should be < len (is {content.length})")) := by
  have hbase : Expression.eval (n + 1) (.identifier "a") 0 0 (stC8 content) =
      .ok (.array content, stC8 content) := rfl
  have hidx : Expression.eval (n + 1) (.number q) 0 0 (stC8 content) =
      .ok (.number q, stC8 content) := rfl
  constructor
  · intro v hv
    obtain ⟨hlt, hget⟩ := List.getElem?_eq_some_iff.mp hv
    simp only [Index.eval, hbase, bindOk, hidx]
    rw [dif_pos hlt]
    simp [hget]
  · intro hge
    simp only [Index.eval, hbase, bindOk, hidx]
    rw [dif_neg (by omega)]

/-- C8 (witness): with `a = {1, 2, 3}`, `a[1]` evaluates to `Number(2)`
(0-based indexing) and `a[5]` is a fatal panic. -/
theorem c8_index_in_range_element_out_of_range_panic_witness :
    Index.eval 2 (.identifier "a") (.number 1) 0 0
        (stC8 [.number 1, .number 2, .number 3]) =
      .ok (.number 2, stC8 [.number 1, .number 2, .number 3]) ∧
    Index.eval 2 (.identifier "a") (.number 5) 0 0
        (stC8 [.number 1, .number 2, .number 3]) =
      .error (.fatal "removal index (is 5) should be < len (is 3)") := by
  constructor
  · exact (c8_index_in_range_element_out_of_range_panic
      [.number 1, .number 2, .number 3] 1 0).1 (.number 2) rfl
  · exact (c8_index_in_range_element_out_of_range_panic
      [.number 1, .number 2, .number 3] 5 0).2 (by decide)

/-- C9 (amended): evaluating a `Call` whose callee evaluates to any value
other than a `Function` returns `Ok(Nil)` — no error — leaving the store
as the callee evaluation left it (the arguments are not evaluated). -/
theorem c9_nonfunction_call_returns_nil
    (n : Nat) (callee : Expression) (args : List Expression) (sym env : Nat)
    (st st1 : Store) (v : Value)
    (h1 : Expression.eval n callee sym env st = .ok (v, st1))
    (h2 : v.isFunction = false) :
    Call.eval (n + 1) callee args sym env st = .ok (.nil, st1) := by
  simp only [Call.eval, h1, bindOk]
  cases v <;> simp_all [Value.isFunction]

/-- C9 (witness): calling the non-function value `1` with no arguments
returns `Nil`. -/
theorem c9_nonfunction_call_returns_nil_witness :
    Expression.eval 1 (.number 1) 0 0 initialStore = .ok (.number 1, initialStore) ∧
    (Value.number 1).isFunction = false ∧
    Call.eval 2 (.number 1) [] 0 0 initialStore = .ok (.nil, initialStore) :=
  ⟨rfl, rfl, c9_nonfunction_call_returns_nil 1 (.number 1) [] 0 0
    initialStore initialStore (.number 1) rfl rfl⟩

/-- Evaluating a bare identifier leaves the store unchanged: the lookup
only reads the symbol and value tables. -/
theorem identifierEvalPure (m : Nat) (x : String) (sym env : Nat) (st : Store)
    (r : Value × Store)
    (h : Expression.eval (m + 1) (.identifier x) sym env st = .ok r) : r.2 = st := by
  simp only [Expression.eval] at h
  split at h
  · split at h
    · injection h with h2
      subst h2
      rfl
    · exact Except.noConfusion h
  · exact Except.noConfusion h

/-- C10: evaluating `x[idx]` where the base is an identifier and the index
expression's own evaluation leaves the store unchanged never changes the
store — the element removal acts on the value cloned out of the table,
not on the table's slot — so a subsequent read of `x` returns the same
array with all of its elements. -/
theorem c10_index_eval_preserves_store
    (n : Nat) (x : String) (idx : Expression) (sym env : Nat)
    (st st2 : Store) (vi res : Value)
    (hidx : Expression.eval n idx sym env st = .ok (vi, st))
    (h : Index.eval (n + 1) (.identifier x) idx sym env st = .ok (res, st2)) :
    st2 = st := by
  cases n with
  | zero => simp [Expression.eval] at hidx
  | succ m =>
    simp only [Index.eval] at h
    cases hb : Expression.eval (m + 1) (.identifier x) sym env st with
    | error e =>
      rw [hb, bindErr] at h
      exact Except.noConfusion h
    | ok r =>
      obtain ⟨v, st3⟩ := r
      have hst3 : st3 = st := identifierEvalPure m x sym env st (v, st3) hb
      subst hst3
      rw [hb, bindOk] at h
      cases v with
      | array content =>
        dsimp only at h
        rw [hidx, bindOk] at h
        cases vi with
        | number q =>
          dsimp only at h
          by_cases hlt : ratToUsize q < content.length
          · rw [dif_pos hlt] at h
            exact ((Prod.mk.injEq _ _ _ _).mp (Except.ok.inj h)).2.symm
          · rw [dif_neg hlt] at h
            exact Except.noConfusion h
        | bool b => exact Except.noConfusion h
        | str s => exact Except.noConfusion h
        | char c => exact Except.noConfusion h
        | array xs => exact Except.noConfusion h
        | function ps body => exact Except.noConfusion h
        | nil => exact Except.noConfusion h
      | number q => exact ((Prod.mk.injEq _ _ _ _).mp (Except.ok.inj h)).2.symm
      | bool b => exact ((Prod.mk.injEq _ _ _ _).mp (Except.ok.inj h)).2.symm
      | str s => exact ((Prod.mk.injEq _ _ _ _).mp (Except.ok.inj h)).2.symm
      | char c => exact ((Prod.mk.injEq _ _ _ _).mp (Except.ok.inj h)).2.symm
      | function ps body => exact ((Prod.mk.injEq _ _ _ _).mp (Except.ok.inj h)).2.symm
      | nil => exact ((Prod.mk.injEq _ _ _ _).mp (Except.ok.inj h)).2.symm

/-- C5 (counterexample): `x` infers as `Any`, yet `x < 1` is a type error
— comparison operators have no `Any` rule, so inference does not
"propagate `Any` rather than failing" for them. -/
theorem c5_comparison_rejects_any :
    Expression.get_type 5 (.identifier "x") 0 0 0 stC5 = .ok (.any, stC5) ∧
    Operation.get_type 6 (.identifier "x") .lt (.number 1) 0 0 0 stC5 =
      .error (.runError "(Any<Number): failed to compare") :=
  ⟨rfl, rfl⟩

/-- C5 (witness): with `x : Any`, `x + 1` infers as `Any` while `x > 1`
fails. -/
theorem c5_any_propagation_arith_only_witness :
    Expression.get_type 5 (.identifier "x") 0 0 0 stC5 = .ok (.any, stC5) ∧
    Expression.get_type 5 (.number 1) 0 0 0 stC5 = .ok (.number, stC5) ∧
    Operation.get_type 6 (.identifier "x") .add (.number 1) 0 0 0 stC5 = .ok (.any, stC5) ∧
    resultOk (Operation.get_type 6 (.identifier "x") .gt (.number 1) 0 0 0 stC5) = false := by
  refine ⟨rfl, rfl, ?_, ?_⟩
  · exact (c5_any_propagation_arith_only 5 (.identifier "x") (.number 1) .add 0 0 0
      stC5 stC5 stC5 .any .number rfl rfl (Or.inl ⟨rfl, rfl⟩)).1
      (Or.inr (Or.inr (Or.inr (Or.inr (Or.inl rfl)))))
  · exact (c5_any_propagation_arith_only 5 (.identifier "x") (.number 1) .gt 0 0 0
      stC5 stC5 stC5 .any .number rfl rfl (Or.inl ⟨rfl, rfl⟩)).2
      (Or.inr (Or.inl rfl))

/-- C3 (amended): the lock-step invariant holds for `let`-bindings at the
global scope — after `Binding::visit` and `Binding::eval` of
`let name = q` over a global triple whose symbol array is no longer than
the type and value arrays, the bound name resolves to a slot `(i, 0)`
that is in range in both the type table and the value table and holds
the binding's inferred type and evaluated value.  (The claim's
unrestricted form is false: `Call::eval` pairs a parameter-list symbol
table with an argument-list value table and no type table, so an
arity-mismatched call yields a resolved name whose value lookup falls
out of range — see the counterexample.) -/
theorem c3_let_binding_preserves_lock_step
    (n : Nat) (name : String) (q : Rat) (p1 p2 p3 : Option Nat)
    (ns : List String) (ts : List Ty) (vs : List Value)
    (h1 : ns.length ≤ ts.length) (h2 : ns.length ≤ vs.length) :
    ∃ (st2 st3 : Store) (i : Nat),
      Binding.visit (n + 2) (.identifier name) (.number q) 0 0 0
        (mkGlobal p1 ns p2 ts p3 vs) = .ok st2 ∧
      Binding.eval (n + 2) (.identifier name) (.number q) 0 0 st2 = .ok (.nil, st3) ∧
      SymTab.get_name st3 0 name = some (i, 0) ∧
      i < TypeTab.size st3 0 ∧
      i < ValTab.size st3 0 ∧
      TypeTab.get_type st3 0 i 0 = .ok .number ∧
      ValTab.get_value st3 0 i 0 = .ok (.number q) := by
  cases hf : ns.findIdx? (fun m => m == name) with
  | some i =>
    obtain ⟨hilt, hpi, hmin⟩ := List.findIdx?_eq_some_iff_getElem.mp hf
    have hits : i < ts.length := Nat.lt_of_lt_of_le hilt h1
    have hivs : i < vs.length := Nat.lt_of_lt_of_le hilt h2
    refine ⟨⟨[⟨p1, ns⟩], [⟨p2, ts.set i .number⟩], [⟨p3, vs⟩]⟩,
            ⟨[⟨p1, ns⟩], [⟨p2, ts.set i .number⟩], [⟨p3, vs.set i (.number q)⟩]⟩, i,
            ?_, ?_, ?_, ?_, ?_, ?_, ?_⟩
    · simp [Binding.visit, mkGlobal, SymTab.add_name, hf, TypeTab.size,
        Nat.not_le_of_lt hits, Expression.get_type, bindOk, TypeTab.set_type,
        hits, Store.setTyp]
    · simp [Binding.eval, mkGlobal, SymTab.add_name, hf, ValTab.size,
        Nat.not_le_of_lt hivs, Expression.eval, bindOk, ValTab.set_value,
        hivs, Store.setVal]
    · simp [SymTab.get_name, SymTab.getNameAux, hf]
    · simp [TypeTab.size, hits]
    · simp [ValTab.size, hivs]
    · simp [TypeTab.get_type, List.getElem?_set_self hits]
    · simp [ValTab.get_value, List.getElem?_set_self hivs]
  | none =>
    have hfind2 : (ns ++ [name]).findIdx? (fun m => m == name) = some ns.length := by
      simp [List.findIdx?_append, hf, List.findIdx?_cons]
    by_cases hgt : ts.length ≤ ns.length
    · have hts : ts.length = ns.length := Nat.le_antisymm hgt h1
      by_cases hgv : vs.length ≤ ns.length
      · have hvs : vs.length = ns.length := Nat.le_antisymm hgv h2
        refine ⟨⟨[⟨p1, ns ++ [name]⟩], [⟨p2, (ts ++ [Ty.any]).set ns.length Ty.number⟩], [⟨p3, vs⟩]⟩,
                ⟨[⟨p1, ns ++ [name]⟩], [⟨p2, (ts ++ [Ty.any]).set ns.length Ty.number⟩],
                 [⟨p3, (vs ++ [Value.nil]).set ns.length (Value.number q)⟩]⟩, ns.length,
                ?_, ?_, ?_, ?_, ?_, ?_, ?_⟩
        · simp [Binding.visit, mkGlobal, SymTab.add_name, hf, TypeTab.size, hgt,
            TypeTab.grow, Expression.get_type, bindOk, TypeTab.set_type,
            Store.setTyp, Store.setSym, hts]
        · simp [Binding.eval, mkGlobal, SymTab.add_name, hfind2, ValTab.size, hgv,
            ValTab.grow, Expression.eval, bindOk, ValTab.set_value,
            Store.setVal, hvs]
        · simp [SymTab.get_name, SymTab.getNameAux, hfind2]
        · simp [TypeTab.size, hts]
        · simp [ValTab.size, hvs]
        · have : ns.length < (ts ++ [Ty.any]).length := by simp [hts]
          simp [TypeTab.get_type, List.getElem?_set_self this]
        · have : ns.length < (vs ++ [Value.nil]).length := by simp [hvs]
          simp [ValTab.get_value, List.getElem?_set_self this]
      · have hivs : ns.length < vs.length := Nat.lt_of_not_le hgv
        refine ⟨⟨[⟨p1, ns ++ [name]⟩], [⟨p2, (ts ++ [Ty.any]).set ns.length Ty.number⟩], [⟨p3, vs⟩]⟩,
                ⟨[⟨p1, ns ++ [name]⟩], [⟨p2, (ts ++ [Ty.any]).set ns.length Ty.number⟩],
                 [⟨p3, vs.set ns.length (Value.number q)⟩]⟩, ns.length,
                ?_, ?_, ?_, ?_, ?_, ?_, ?_⟩
        · simp [Binding.visit, mkGlobal, SymTab.add_name, hf, TypeTab.size, hgt,
            TypeTab.grow, Expression.get_type, bindOk, TypeTab.set_type,
            Store.setTyp, Store.setSym, hts]
        · simp [Binding.eval, mkGlobal, SymTab.add_name, hfind2, ValTab.size, hgv,
            ValTab.grow, Expression.eval, bindOk, ValTab.set_value,
            Store.setVal, hivs]
        · simp [SymTab.get_name, SymTab.getNameAux, hfind2]
        · simp [TypeTab.size, hts]
        · simp [ValTab.size, hivs]
        · have : ns.length < (ts ++ [Ty.any]).length := by simp [hts]
          simp [TypeTab.get_type, List.getElem?_set_self this]
        · simp [ValTab.get_value, List.getElem?_set_self hivs]
    · have hits : ns.length < ts.length := Nat.lt_of_not_le hgt
      by_cases hgv : vs.length ≤ ns.length
      · have hvs : vs.length = ns.length := Nat.le_antisymm hgv h2
        refine ⟨⟨[⟨p1, ns ++ [name]⟩], [⟨p2, ts.set ns.length Ty.number⟩], [⟨p3, vs⟩]⟩,
                ⟨[⟨p1, ns ++ [name]⟩], [⟨p2, ts.set ns.length Ty.number⟩],
                 [⟨p3, (vs ++ [Value.nil]).set ns.length (Value.number q)⟩]⟩, ns.length,
                ?_, ?_, ?_, ?_, ?_, ?_, ?_⟩
        · simp [Binding.visit, mkGlobal, SymTab.add_name, hf, TypeTab.size,
            Nat.not_le_of_lt hits, Expression.get_type, bindOk, TypeTab.set_type,
            Store.setTyp, Store.setSym, hits]
        · simp [Binding.eval, mkGlobal, SymTab.add_name, hfind2, ValTab.size, hgv,
            ValTab.grow, Expression.eval, bindOk, ValTab.set_value,
            Store.setVal, hvs]
        · simp [SymTab.get_name, SymTab.getNameAux, hfind2]
        · simp [TypeTab.size, hits]
        · simp [ValTab.size, hvs]
        · simp [TypeTab.get_type, List.getElem?_set_self hits]
        · have : ns.length < (vs ++ [Value.nil]).length := by simp [hvs]
          simp [ValTab.get_value, List.getElem?_set_self this]
      · have hivs : ns.length < vs.length := Nat.lt_of_not_le hgv
        refine ⟨⟨[⟨p1, ns ++ [name]⟩], [⟨p2, ts.set ns.length Ty.number⟩], [⟨p3, vs⟩]⟩,
                ⟨[⟨p1, ns ++ [name]⟩], [⟨p2, ts.set ns.length Ty.number⟩],
                 [⟨p3, vs.set ns.length (Value.number q)⟩]⟩, ns.length,
                ?_, ?_, ?_, ?_, ?_, ?_, ?_⟩
        · simp [Binding.visit, mkGlobal, SymTab.add_name, hf, TypeTab.size,
            Nat.not_le_of_lt hits, Expression.get_type, bindOk, TypeTab.set_type,
            Store.setTyp, Store.setSym, hits]
        · simp [Binding.eval, mkGlobal, SymTab.add_name, hfind2, ValTab.size, hgv,
            ValTab.grow, Expression.eval, bindOk, ValTab.set_value,
            Store.setVal, hivs]
        · simp [SymTab.get_name, SymTab.getNameAux, hfind2]
        · simp [TypeTab.size, hits]
        · simp [ValTab.size, hivs]
        · simp [TypeTab.get_type, List.getElem?_set_self hits]
        · simp [ValTab.get_value, List.getElem?_set_self hivs]

/-- C3 (witness): declaring `let a = 1` over the empty global triple. -/
theorem c3_let_binding_preserves_lock_step_witness :
    ([] : List String).length ≤ ([] : List Ty).length ∧
    ([] : List String).length ≤ ([] : List Value).length ∧
    (∃ (st2 st3 : Store) (i : Nat),
      Binding.visit 2 (.identifier "a") (.number 1) 0 0 0
        (mkGlobal none [] none [] none []) = .ok st2 ∧
      Binding.eval 2 (.identifier "a") (.number 1) 0 0 st2 = .ok (.nil, st3) ∧
      SymTab.get_name st3 0 "a" = some (i, 0) ∧
      i < TypeTab.size st3 0 ∧
      i < ValTab.size st3 0 ∧
      TypeTab.get_type st3 0 i 0 = .ok .number ∧
      ValTab.get_value st3 0 i 0 = .ok (.number 1)) :=
  ⟨Nat.le_refl 0, Nat.le_refl 0,
   c3_let_binding_preserves_lock_step 0 "a" 1 none none none [] [] []
     (Nat.le_refl 0) (Nat.le_refl 0)⟩

/-- C10 (witness): with `a = {7}`, evaluating `a[0]` returns the element
and leaves the store exactly as it was. -/
theorem c10_index_eval_preserves_store_witness :
    Expression.eval 1 (.number 0) 0 0 (stC8 [.number 7]) =
      .ok (.number 0, stC8 [.number 7]) ∧
    Index.eval 2 (.identifier "a") (.number 0) 0 0 (stC8 [.number 7]) =
      .ok (.number 7, stC8 [.number 7]) ∧
    stC8 [.number 7] = stC8 [.number 7] :=
  ⟨rfl, rfl, c10_index_eval_preserves_store 1 "a" (.number 0) 0 0
    (stC8 [.number 7]) (stC8 [.number 7]) (.number 0) (.number 7) rfl rfl⟩

end Eucalyptus
